import Mathlib

/-!
Verification development for the exiftool session/metadata module
(`exiftool.go`).  The Go code is shallowly embedded: pure functions become
Lean functions, byte slices become `List Char`, the bufio scanner step is
modelled by the triple of observations the code makes of it, Go panics
become an explicit `crash` outcome, and the fatal `Catch` call becomes an
`Except.error`.  Helpers that live outside this file's source
(`KeyValueMap`, `FindEarliestDate`, timestamp normalization, printing) are
modelled from the specification and marked as such in their doc comments.
-/

/-- Equality of `Except` values is decidable when it is on both sides. -/
instance {ε α : Type} [DecidableEq ε] [DecidableEq α] : DecidableEq (Except ε α)
  | .ok a, .ok b =>
      if h : a = b then .isTrue (by rw [h]) else .isFalse (by intro hc; cases hc; exact h rfl)
  | .error a, .error b =>
      if h : a = b then .isTrue (by rw [h]) else .isFalse (by intro hc; cases hc; exact h rfl)
  | .ok _, .error _ => .isFalse (by intro hc; cases hc)
  | .error _, .ok _ => .isFalse (by intro hc; cases hc)

/-- Outcome of running a piece of Go code that may panic: either a normal
return value or a crash (runtime panic) with its message.  A panic unwinds
out of the functions modelled here (no `recover` in the source), so the
crash carries no partial state. -/
inductive GoOutcome (α : Type) where
  | ok (a : α)
  | crash (msg : String)
deriving DecidableEq

/-- A Go `error` value as produced by this file: either a plain message
(`fmt.Errorf` with no `%w`) or a wrapping error carrying a context message
and the wrapped inner error's message. -/
inductive GoErr where
  | msg (s : String)
  | wrap (ctx : String) (inner : String)
deriving DecidableEq

/-- Whether an error wraps an underlying error (was built with `%w`). -/
def GoErr.isWrap : GoErr → Bool
  | .wrap _ _ => true
  | .msg _ => false

/-- Modelled from the spec: `KeyValueMap` is defined outside this source
file; per the spec it maps tag names to loosely-typed values and the `Get`
accessor returns the field's string representation or the empty string when
absent.  All fields the claims exercise are string-valued, so values are
modelled as strings. -/
abbrev KeyValueMap := List (String × String)

/-- Modelled from the spec: string lookup in a `KeyValueMap`, empty string
when the key is absent (`Get(key)` never fails). -/
def kvGetString (m : KeyValueMap) (key : String) : String :=
  (m.lookup key).getD ""

/-- A JSON document, as seen by `json.Unmarshal` with target type
`[]KeyValueMap`: arrays, objects with string values, any other valid JSON
value (`scalar`), or bytes that are not valid JSON at all (`invalid`).
This stands for the raw byte input of `Parse`; JSON syntax parsing itself
is an external primitive per the spec. -/
inductive GoJson where
  | obj (kvs : KeyValueMap)
  | arr (elems : List GoJson)
  | scalar (raw : String)
  | invalid (raw : String)

/-- Comma-separated rendering of JSON object members. -/
def renderPairs : KeyValueMap → String
  | [] => ""
  | [(k, v)] => "\"" ++ k ++ "\":\"" ++ v ++ "\""
  | (k, v) :: rest => "\"" ++ k ++ "\":\"" ++ v ++ "\"," ++ renderPairs rest

mutual

/-- The string form of the bytes a `GoJson` stands for (Go's
`string(jsonBytes)`), used where the code retains or prints the raw
payload. -/
def GoJson.render : GoJson → String
  | .obj kvs => "\x7b" ++ renderPairs kvs ++ "\x7d"
  | .arr elems => "[" ++ renderElems elems ++ "]"
  | .scalar raw => raw
  | .invalid raw => raw

/-- Comma-separated rendering of JSON array elements. -/
def renderElems : List GoJson → String
  | [] => ""
  | [j] => GoJson.render j
  | j :: rest => GoJson.render j ++ "," ++ renderElems rest

end

/-- `json.Unmarshal` of one array element into a `KeyValueMap`: only a JSON
object decodes; anything else is a type-mismatch decode error. -/
def elemToMap : GoJson → Except String KeyValueMap
  | .obj kvs => .ok kvs
  | _ => .error "json: cannot unmarshal value into Go value of type KeyValueMap"

/-- `json.Unmarshal(jsonBytes, &metaMap)` with `metaMap : []KeyValueMap`:
the top level must be a JSON array and every element must be an object;
invalid JSON is a syntax error; any array length (including zero) decodes
successfully. -/
def unmarshalMetaList : GoJson → Except String (List KeyValueMap)
  | .arr elems => elems.mapM elemToMap
  | .invalid _ => .error "invalid character in JSON input"
  | _ => .error "json: cannot unmarshal value into Go value of type []KeyValueMap"

/-- The `ExifToolMetadata` record of the source: the requested path, the
parsed field map, and the retained raw JSON string. -/
structure ExifToolMetadata where
  SourceFile : String
  DataMap : KeyValueMap
  DataMapJson : String
deriving DecidableEq

/-- `meta.Get(key)`: string field lookup through the data map. -/
def Get (meta : ExifToolMetadata) (key : String) : String :=
  kvGetString meta.DataMap key

/-- `meta.Parse(jsonBytes)` from the source: unmarshal into `[]KeyValueMap`;
on a decode error return a wrapping error embedding the offending bytes and
leave the record unchanged; on success store the raw string, then take
element zero of the slice — which panics (index out of range) when the
decoded slice is empty. -/
def Parse (meta : ExifToolMetadata) (jsonBytes : GoJson) :
    GoOutcome (ExifToolMetadata × Option GoErr) :=
  match unmarshalMetaList jsonBytes with
  | .error e =>
      .ok (meta, some (.wrap ("error during unmarshaling (" ++ jsonBytes.render ++ ")") e))
  | .ok metaMap =>
      let meta2 : ExifToolMetadata := { meta with DataMapJson := jsonBytes.render }
      match metaMap with
      | [] => .crash "runtime error: index out of range [0] with length 0"
      | m :: _ => .ok ({ meta2 with DataMap := m }, none)

/-- The three observations `ReadMetadata` makes of the scanner after its
single scan step: the boolean returned by `Scan()`, the value of `Err()`,
and the captured bytes `Bytes()` (given as the JSON document those bytes
decode to, or `invalid`). -/
structure ScanStep where
  ok : Bool
  err : Option String
  bytes : GoJson

/-- `et.ReadMetadata(file)` from the source, with the subprocess writes
elided (they produce no observable result here) and the scanner's state
after the scan step passed in as `scan`.  The record is initialised with
the requested path and a `Parse([]byte("\x7b\x7d"))` call whose error is
ignored; then: `Scan()` false → "error reading exif data:" message;
`Err()` set → wrap it; otherwise parse the captured bytes. -/
def ReadMetadata (file : String) (scan : ScanStep) :
    GoOutcome (ExifToolMetadata × Option GoErr) :=
  match Parse { SourceFile := file, DataMap := [], DataMapJson := "" } (GoJson.obj []) with
  | .crash m => .crash m
  | .ok (meta, _) =>
      if scan.ok = false then
        .ok (meta, some (.msg ("error reading exif data:" ++ file)))
      else
        match scan.err with
        | some e => .ok (meta, some (.wrap "error while reading stdMergedOut" e))
        | none => Parse meta scan.bytes

/-- Does `tok` occur at the very start of `data`?  (The empty pattern
occurs everywhere, matching Go's `bytes.Index` convention.) -/
def startsWithTok : List Char → List Char → Bool
  | [], _ => true
  | _ :: _, [] => false
  | t :: ts, d :: ds => t = d && startsWithTok ts ds

/-- `bytes.Index(data, tok)`: offset of the first occurrence of `tok`
inside `data`, `none` when absent (Go returns -1). -/
def bytesIndex : List Char → List Char → Option Nat
  | data, tok =>
    if startsWithTok tok data then some 0
    else
      match data with
      | [] => none
      | _ :: rest => (bytesIndex rest tok).map (fun n => n + 1)

/-- Result of one call of a `bufio.SplitFunc`: bytes to advance, the token
to emit (`none` is Go's nil slice, "request more data"), and the error. -/
structure SplitResult where
  advance : Nat
  token : Option (List Char)
  err : Option String
deriving DecidableEq

/-- `et.splitReadyToken(data, atEOF)` from the source, with the configured
ready token passed explicitly: if the token occurs at `idx`, consume
`idx + len(token)` bytes and emit `data[:idx]`; if absent at EOF with
leftover bytes, fail with "no final token found"; otherwise request more
data. -/
def splitReadyToken (readyToken : List Char) (data : List Char) (atEOF : Bool) : SplitResult :=
  match bytesIndex data readyToken with
  | none =>
      if atEOF ∧ data.length > 0 then
        { advance := 0, token := some data, err := some "no final token found" }
      else
        { advance := 0, token := none, err := none }
  | some idx =>
      { advance := idx + readyToken.length, token := some (data.take idx), err := none }

/-- The default non-Windows ready token set by `UseDefaults`: the bytes of
"&#123;ready&#125;" followed by a newline. -/
def readyTokenUnix : List Char := ['\x7b', 'r', 'e', 'a', 'd', 'y', '\x7d', '\n']

/-- A Go `time.Time`, reduced to what the claims observe: the calendar year
(`Year()`) and a position within the year; chronological order is
lexicographic on the pair.  The zero `time.Time&#123;&#125;` is year 1, position 0. -/
structure GoTime where
  year : Int
  rest : Nat
deriving DecidableEq

/-- Strict chronological order on `GoTime` (`time.Time.Before`). -/
def goTimeLT (a b : GoTime) : Prop :=
  a.year < b.year ∨ (a.year = b.year ∧ a.rest < b.rest)

instance (a b : GoTime) : Decidable (goTimeLT a b) := by
  unfold goTimeLT; infer_instance

/-- Boolean form of the chronological order. -/
def goTimeBefore (a b : GoTime) : Bool := decide (goTimeLT a b)

/-- Go's zero `time.Time&#123;&#125;` (year 1). -/
def zeroGoTime : GoTime := { year := 1, rest := 0 }

/-- Modelled from the spec: `FindEarliestDate` is defined outside this
source file; the spec says selection is by minimum timestamp value only
(ties broken arbitrarily), with the fallback for an empty candidate list. -/
def FindEarliestDate (dates : List GoTime) (fallback : GoTime) : GoTime :=
  match dates with
  | [] => fallback
  | d :: rest => rest.foldl (fun acc x => if goTimeBefore x acc then x else acc) d

/-- The errors `GetTime` can return: the distinguished `ZeroDateError`
sentinel, or a date-format parse error embedding the offending (normalized)
string, the detected format, and the underlying parse error message. -/
inductive GoTimeErr where
  | zeroDate
  | parseErr (offending : String) (format : String) (inner : String)
deriving DecidableEq

/-- The regexp test `(?i)^[1-9]` of the source: does the string begin with
a nonzero decimal digit? -/
def beginsWithNonzeroDigit (s : String) : Bool :=
  match s.toList with
  | [] => false
  | c :: _ => decide ('1' ≤ c) && decide (c ≤ '9')

/-- Modelled from the spec: timestamp format detection and parsing
(`NormalizeTimestampStringFormat` and Go's `time.Parse`) are external
collaborators; a `TimeParser` bundles them.  `normalize` returns the
detected format and the normalized date string; `parseTime fmt s` parses
`s` according to `fmt`. -/
structure TimeParser where
  normalize : String → String × String
  parseTime : String → String → Except String GoTime

/-- `meta.GetTime(key)` from the source: empty value or value not beginning
with a nonzero digit → `ZeroDateError`; otherwise detect the format,
normalize, and parse; a parse failure is reported with the normalized
string and the detected format embedded. -/
def GetTime (tp : TimeParser) (meta : ExifToolMetadata) (key : String) :
    Except GoTimeErr GoTime :=
  let val := Get meta key
  if val = "" ∨ beginsWithNonzeroDigit val = false then
    .error .zeroDate
  else
    let p := tp.normalize val
    match tp.parseTime p.1 p.2 with
    | .ok date => .ok date
    | .error e => .error (.parseErr p.2 p.1 e)

/-- The fixed candidate field list of `GetEarliestCreationDate`. -/
def candidateKeys : List String :=
  ["CreateDate", "ModifyDate", "DateTimeOriginal", "DateTimeDigitized",
   "GPSDateTime", "FileModifyDate"]

/-- The candidate-collection loop of `GetEarliestCreationDate`: every key
whose `GetTime` fails (zero-date or parse error) is skipped; successful
timestamps are collected in key order. -/
def collectCandidates (tp : TimeParser) (meta : ExifToolMetadata) : List GoTime :=
  candidateKeys.filterMap (fun k => (GetTime tp meta k).toOption)

/-- The message of `ExifCreationDateNotFoundError`. -/
def ExifCreationDateNotFoundError : String := "cannot find a suitable exif creation date"

/-- `meta.GetEarliestCreationDate()` from the source: collect the
successfully parsed candidates; with zero candidates, `Catch` raises the
fatal not-found condition (modelled as `Except.error`); otherwise select
the earliest via `FindEarliestDate` and raise the same fatal condition when
its year is at or before 1970; else return it.  (The `PrintLnRed`
diagnostic print has no observable value here.) -/
def GetEarliestCreationDate (tp : TimeParser) (meta : ExifToolMetadata) :
    Except String GoTime :=
  let candidates := collectCandidates tp meta
  if candidates.isEmpty then
    .error ExifCreationDateNotFoundError
  else
    let earliest := FindEarliestDate candidates zeroGoTime
    if earliest.year ≤ 1970 then
      .error ExifCreationDateNotFoundError
    else
      .ok earliest

/-- Recursion core of `strings.ReplaceAll` on character lists, structurally
recursive on a fuel bound: each step consumes at least one input character,
so any `fuel ≥ s.length` yields the replacement of every non-overlapping
occurrence of `old` by `new`, left to right.  (With the fuel exhausted the
remaining input is returned unchanged; `goReplaceAllChars` always supplies
sufficient fuel.) -/
def replaceAllFuel : Nat → List Char → List Char → List Char → List Char
  | 0, s, _, _ => s
  | _ + 1, [], _, _ => []
  | fuel + 1, c :: rest, old, new =>
    if old ≠ [] ∧ startsWithTok old (c :: rest) = true then
      new ++ replaceAllFuel fuel ((c :: rest).drop old.length) old new
    else
      c :: replaceAllFuel fuel rest old new

/-- `strings.ReplaceAll` on character lists. -/
def goReplaceAllChars (s old new : List Char) : List Char :=
  replaceAllFuel s.length s old new

/-- `strings.ReplaceAll` on strings. -/
def goReplaceAll (s old new : String) : String :=
  (goReplaceAllChars s.toList old.toList new.toList).asString

/-- The ASCII white-space characters `strings.TrimSpace` trims (the claims
exercise no non-ASCII white space). -/
def isGoSpace (c : Char) : Bool :=
  c = ' ' || c = '\t' || c = '\n' || c = '\x0b' || c = '\x0c' || c = '\r'

/-- `strings.TrimSpace`: drop leading and trailing white space. -/
def goTrimSpace (s : String) : String :=
  (((s.toList.dropWhile isGoSpace).reverse.dropWhile isGoSpace).reverse).asString

/-- The normalization applied to every duration candidate in
`GetMediaDuration`: remove every "(approx)" and every space character. -/
def normDuration (v : String) : String :=
  goReplaceAll (goReplaceAll v "(approx)" "") " " ""

/-- The candidate loop of `GetMediaDuration`: normalize each value in turn
and return the first normalized value that is non-empty, trimmed; empty
string when none is. -/
def durationLoop : List String → String
  | [] => ""
  | v :: rest =>
    let n := normDuration v
    if n ≠ "" then goTrimSpace n else durationLoop rest

/-- `meta.GetMediaDuration()` from the source: try `Duration`,
`MediaDuration`, `TrackDuration` in that order through the loop above. -/
def GetMediaDuration (meta : ExifToolMetadata) : String :=
  durationLoop [Get meta "Duration", Get meta "MediaDuration", Get meta "TrackDuration"]

/-- `meta.GetFullCameraName()` from the source: start from `Make` (or the
empty string), append `Model` — parenthesized when something is already
present — only when `Model` is non-empty and differs from the string built
so far, and trim the result. -/
def GetFullCameraName (meta : ExifToolMetadata) : String :=
  let str0 := if Get meta "Make" ≠ "" then Get meta "Make" else ""
  let str1 :=
    if Get meta "Model" ≠ "" ∧ Get meta "Model" ≠ str0 then
      if str0 = "" then Get meta "Model"
      else str0 ++ " (" ++ Get meta "Model" ++ ")"
    else str0
  goTrimSpace str1

/-! ### Facts about token search (`bytesIndex`) -/

/-- A pattern occurring at the head of a list is no longer than the list. -/
theorem startsWithTok_length {t d : List Char} (h : startsWithTok t d = true) :
    t.length ≤ d.length := by
  induction t generalizing d with
  | nil => simp
  | cons c cs ih =>
    cases d with
    | nil => simp [startsWithTok] at h
    | cons x xs =>
      simp only [startsWithTok, Bool.and_eq_true] at h
      simpa using ih h.2

/-- Every list begins with itself, whatever follows. -/
theorem startsWithTok_append_self (t rest : List Char) :
    startsWithTok t (t ++ rest) = true := by
  induction t with
  | nil => rfl
  | cons c cs ih => simp [startsWithTok, ih]

/-- An occurrence at the head of a prefix is an occurrence at the head of
the whole list. -/
theorem startsWithTok_of_take {t l : List Char} {n : Nat}
    (h : startsWithTok t (l.take n) = true) : startsWithTok t l = true := by
  induction t generalizing l n with
  | nil => rfl
  | cons c cs ih =>
    cases l with
    | nil => simp at h; simp [startsWithTok] at h
    | cons x xs =>
      cases n with
      | zero => simp [startsWithTok] at h
      | succ m =>
        simp only [List.take_succ_cons, startsWithTok, Bool.and_eq_true] at h ⊢
        exact ⟨h.1, ih h.2⟩

/-- When `bytesIndex` reports an occurrence, there is one there. -/
theorem bytesIndex_spec {data tok : List Char} {idx : Nat}
    (h : bytesIndex data tok = some idx) :
    startsWithTok tok (data.drop idx) = true := by
  induction data generalizing idx with
  | nil =>
    unfold bytesIndex at h
    by_cases hs : startsWithTok tok [] = true
    · simp [hs] at h; subst h; simpa using hs
    · simp [hs] at h
  | cons c rest ih =>
    unfold bytesIndex at h
    by_cases hs : startsWithTok tok (c :: rest) = true
    · simp [hs] at h; subst h; simpa using hs
    · simp only [hs, Bool.false_eq_true, if_false] at h
      cases hbr : bytesIndex rest tok with
      | none => rw [hbr] at h; simp at h
      | some m =>
        rw [hbr] at h
        simp only [Option.map_some', Option.some.injEq] at h
        subst h
        simpa using ih hbr

/-- `bytesIndex` reports the first occurrence: nothing occurs earlier. -/
theorem bytesIndex_first {data tok : List Char} {idx : Nat}
    (h : bytesIndex data tok = some idx) :
    ∀ j, j < idx → startsWithTok tok (data.drop j) = false := by
  induction data generalizing idx with
  | nil =>
    intro j hj
    unfold bytesIndex at h
    by_cases hs : startsWithTok tok [] = true
    · simp [hs] at h; omega
    · simp [hs] at h
  | cons c rest ih =>
    intro j hj
    unfold bytesIndex at h
    by_cases hs : startsWithTok tok (c :: rest) = true
    · simp [hs] at h; omega
    · simp only [hs, Bool.false_eq_true, if_false] at h
      cases hbr : bytesIndex rest tok with
      | none => rw [hbr] at h; simp at h
      | some m =>
        rw [hbr] at h
        simp only [Option.map_some', Option.some.injEq] at h
        subst h
        cases j with
        | zero => simpa using hs
        | succ i => simpa using ih hbr i (by omega)

/-- When nothing occurs anywhere, `bytesIndex` finds nothing. -/
theorem bytesIndex_eq_none {data tok : List Char}
    (h : ∀ j, startsWithTok tok (data.drop j) = false) :
    bytesIndex data tok = none := by
  induction data with
  | nil =>
    unfold bytesIndex
    simpa using h 0
  | cons c rest ih =>
    unfold bytesIndex
    have h0 := h 0
    simp only [List.drop_zero] at h0
    simp only [h0, Bool.false_eq_true, if_false]
    have : bytesIndex rest tok = none := ih (fun j => by simpa using h (j + 1))
    simp [this]

/-- The emitted record `data[:idx]` contains no occurrence of the token
when `idx` is the first occurrence. -/
theorem bytesIndex_take_eq_none {data tok : List Char} {idx : Nat}
    (htok : tok ≠ []) (h : bytesIndex data tok = some idx) :
    bytesIndex (data.take idx) tok = none := by
  apply bytesIndex_eq_none
  intro j
  by_cases hj : j < idx
  · by_contra hocc
    simp only [Bool.not_eq_false] at hocc
    have hdt : (data.take idx).drop j = (data.drop j).take (idx - j) := by
      rw [List.drop_take]
    rw [hdt] at hocc
    have := startsWithTok_of_take hocc
    rw [bytesIndex_first h j hj] at this
    exact Bool.false_ne_true this
  · have hlen : ((data.take idx).drop j).length = 0 := by
      simp only [List.length_drop, List.length_take]
      omega
    have hnil : (data.take idx).drop j = [] := List.eq_nil_of_length_eq_zero hlen
    rw [hnil]
    cases tok with
    | nil => exact absurd rfl htok
    | cons t ts => rfl

/-! ### Concrete inputs used by witnesses and counterexamples -/

/-- A buffer with two leading bytes, then the ready token, then more data. -/
def bufMid : List Char := ['a', 'b'] ++ readyTokenUnix ++ ['c']

/-- A buffer that contains no ready token. -/
def bufNoTok : List Char := ['x', 'y']

/-- C5: for every buffer in which the ready token occurs, first at offset
`idx`, `splitReadyToken` consumes exactly `idx + len(readyToken)` bytes and
emits `data[:idx]` as the completed record; the token never occurs inside
the emitted record; and two back-to-back tokens yield an empty record. -/
theorem c5_split_found (tok data : List Char) (idx : Nat) (atEOF : Bool)
    (htok : tok ≠ []) (h : bytesIndex data tok = some idx) :
    splitReadyToken tok data atEOF =
      { advance := idx + tok.length, token := some (data.take idx), err := none }
  ∧ bytesIndex (data.take idx) tok = none
  ∧ ∀ rest, splitReadyToken tok (tok ++ tok ++ rest) atEOF =
      { advance := tok.length, token := some [], err := none } := by
  refine ⟨?_, bytesIndex_take_eq_none htok h, ?_⟩
  · unfold splitReadyToken
    rw [h]
  · intro rest
    have h0 : bytesIndex (tok ++ tok ++ rest) tok = some 0 := by
      unfold bytesIndex
      rw [List.append_assoc, startsWithTok_append_self]
      simp
    unfold splitReadyToken
    rw [h0]
    simp

/-- Witness for C5 at a concrete buffer: token first at offset 2, so 10
bytes are consumed, record `"ab"` is emitted, and a doubled token emits the
empty record. -/
theorem c5_split_found_witness :
    bytesIndex bufMid readyTokenUnix = some 2
  ∧ splitReadyToken readyTokenUnix bufMid false =
      { advance := 10, token := some ['a', 'b'], err := none }
  ∧ splitReadyToken readyTokenUnix (readyTokenUnix ++ readyTokenUnix ++ ['z']) false =
      { advance := 8, token := some [], err := none } :=
  ⟨by decide,
   by
    have h := c5_split_found readyTokenUnix bufMid 2 false (by decide) (by decide)
    exact h.1.trans (by decide),
   (c5_split_found readyTokenUnix bufMid 2 false (by decide) (by decide)).2.2 ['z']⟩

/-- C6: for every buffer not containing the ready token, `splitReadyToken`
fails with "no final token found" exactly at end-of-stream with leftover
bytes, and otherwise requests more input, consuming and emitting nothing
with no error. -/
theorem c6_split_no_token (tok data : List Char) (atEOF : Bool)
    (h : bytesIndex data tok = none) :
    (atEOF = true → data ≠ [] →
      splitReadyToken tok data atEOF =
        { advance := 0, token := some data, err := some "no final token found" })
  ∧ (atEOF = false →
      splitReadyToken tok data atEOF = { advance := 0, token := none, err := none }) := by
  constructor
  · intro hEOF hne
    unfold splitReadyToken
    rw [h]
    have : data.length > 0 := List.length_pos.mpr hne
    simp [hEOF, this]
  · intro hEOF
    unfold splitReadyToken
    rw [h]
    simp [hEOF]

/-- Witness for C6 at a concrete tokenless buffer: the truncation error at
end-of-stream, the request for more data before it. -/
theorem c6_split_no_token_witness :
    splitReadyToken readyTokenUnix bufNoTok true =
      { advance := 0, token := some bufNoTok, err := some "no final token found" }
  ∧ splitReadyToken readyTokenUnix bufNoTok false =
      { advance := 0, token := none, err := none } :=
  ⟨(c6_split_no_token readyTokenUnix bufNoTok true (by decide)).1 rfl (by decide),
   (c6_split_no_token readyTokenUnix bufNoTok false (by decide)).2 rfl⟩

/-! ### Facts about chronological order and earliest-date selection -/

/-- Arithmetic reading of `goTimeBefore a b = true`. -/
theorem goTimeBefore_true_iff (a b : GoTime) :
    goTimeBefore a b = true ↔
      (a.year < b.year ∨ (a.year = b.year ∧ a.rest < b.rest)) := by
  simp [goTimeBefore, goTimeLT]

/-- Arithmetic reading of `goTimeBefore a b = false`: `b` is at or before `a`. -/
theorem goTimeBefore_false_iff (a b : GoTime) :
    goTimeBefore a b = false ↔
      (b.year < a.year ∨ (b.year = a.year ∧ b.rest ≤ a.rest)) := by
  simp only [goTimeBefore, decide_eq_false_iff_not, goTimeLT]
  omega

/-- The fold of `FindEarliestDate` returns one of its inputs. -/
theorem earliest_foldl_mem (cs : List GoTime) :
    ∀ acc : GoTime,
      cs.foldl (fun acc x => if goTimeBefore x acc then x else acc) acc ∈ acc :: cs := by
  induction cs with
  | nil => intro acc; simp
  | cons c cs ih =>
    intro acc
    simp only [List.foldl_cons]
    have h := ih (if goTimeBefore c acc then c else acc)
    rcases List.mem_cons.mp h with h1 | h2
    · rw [h1]
      by_cases hb : goTimeBefore c acc = true
      · simp [hb]
      · simp only [Bool.not_eq_true] at hb
        simp [hb]
    · exact List.mem_cons.mpr (Or.inr (List.mem_cons.mpr (Or.inr h2)))

/-- The fold of `FindEarliestDate` is at or before every input. -/
theorem earliest_foldl_le (cs : List GoTime) :
    ∀ acc : GoTime, ∀ u ∈ acc :: cs,
      goTimeBefore u
        (cs.foldl (fun acc x => if goTimeBefore x acc then x else acc) acc) = false := by
  induction cs with
  | nil =>
    intro acc u hu
    simp only [List.mem_singleton] at hu
    subst hu
    simp only [List.foldl_nil]
    rw [goTimeBefore_false_iff]
    omega
  | cons c cs ih =>
    intro acc u hu
    simp only [List.foldl_cons]
    have hstep := ih (if goTimeBefore c acc then c else acc)
    by_cases hb : goTimeBefore c acc = true
    · rw [if_pos hb] at hstep ⊢
      rcases List.mem_cons.mp hu with h1 | h2
      · rw [h1]
        have hc := hstep c (List.mem_cons_self c cs)
        rw [goTimeBefore_true_iff] at hb
        rw [goTimeBefore_false_iff] at hc ⊢
        omega
      · rcases List.mem_cons.mp h2 with h3 | h4
        · rw [h3]
          exact hstep c (List.mem_cons_self c cs)
        · exact hstep u (List.mem_cons.mpr (Or.inr h4))
    · rw [Bool.not_eq_true] at hb
      rw [if_neg (by simp [hb])] at hstep ⊢
      rcases List.mem_cons.mp hu with h1 | h2
      · rw [h1]
        exact hstep acc (List.mem_cons_self acc cs)
      · rcases List.mem_cons.mp h2 with h3 | h4
        · rw [h3]
          have hacc := hstep acc (List.mem_cons_self acc cs)
          rw [goTimeBefore_false_iff] at hacc hb ⊢
          omega
        · exact hstep u (List.mem_cons.mpr (Or.inr h4))

/-- `FindEarliestDate` of a non-empty list returns one of its elements. -/
theorem FindEarliestDate_mem (d : GoTime) (cs : List GoTime) (fb : GoTime) :
    FindEarliestDate (d :: cs) fb ∈ d :: cs := by
  simpa [FindEarliestDate] using earliest_foldl_mem cs d

/-- `FindEarliestDate` of a non-empty list is at or before every element. -/
theorem FindEarliestDate_le (d : GoTime) (cs : List GoTime) (fb : GoTime) :
    ∀ u ∈ d :: cs, goTimeBefore u (FindEarliestDate (d :: cs) fb) = false := by
  simpa [FindEarliestDate] using earliest_foldl_le cs d

/-- A concrete timestamp collaborator used on concrete records: format
detection returns the engine's usual colon-separated pattern unchanged, and
parsing reads the leading four digits as the year. -/
def tpYear : TimeParser :=
  { normalize := fun v => ("2006:01:02 15:04:05", v),
    parseTime := fun _ s =>
      match s.toList with
      | a :: b :: c :: d :: _ =>
        if a.isDigit && b.isDigit && c.isDigit && d.isDigit then
          .ok { year := ((a.toNat - 48) * 1000 + (b.toNat - 48) * 100 +
                         (c.toNat - 48) * 10 + (d.toNat - 48) : Nat),
                rest := 0 }
        else .error "cannot parse"
      | _ => .error "cannot parse" }

/-- A record whose candidate fields hold exactly one epoch date (year 1970)
and one year-2010 date. -/
def metaEpochAnd2010 : ExifToolMetadata :=
  { SourceFile := "a.jpg",
    DataMap := [("CreateDate", "1970:01:01 00:00:00"), ("ModifyDate", "2010:06:01 12:00:00")],
    DataMapJson := "" }

/-- A record whose only candidate field holds an epoch date. -/
def metaEpochOnly : ExifToolMetadata :=
  { SourceFile := "b.jpg",
    DataMap := [("CreateDate", "1970:01:01 00:00:00")],
    DataMapJson := "" }

/-- C1, counterexample to the claim as stated: on a record whose candidate
fields yield exactly the two successfully parsed timestamps 1970 and 2010,
`GetEarliestCreationDate` does not return the 2010 timestamp — the epoch
candidate wins the minimum selection and the post-selection year guard
makes the call end in the fatal failure condition. -/
theorem c1_counterexample :
    GetTime tpYear metaEpochAnd2010 "CreateDate" = .ok { year := 1970, rest := 0 }
  ∧ GetTime tpYear metaEpochAnd2010 "ModifyDate" = .ok { year := 2010, rest := 0 }
  ∧ collectCandidates tpYear metaEpochAnd2010 =
      [{ year := 1970, rest := 0 }, { year := 2010, rest := 0 }]
  ∧ GetEarliestCreationDate tpYear metaEpochAnd2010 = .error ExifCreationDateNotFoundError
  ∧ GetEarliestCreationDate tpYear metaEpochAnd2010 ≠ .ok { year := 2010, rest := 0 } := by
  decide

/-- C1 (amended): `GetEarliestCreationDate` skips candidates whose
`GetTime` fails and works on the list of successfully parsed candidates:
with no candidate it fails fatally; a returned date is a candidate, is
chronologically at or before every candidate, and has year after 1970; any
successfully parsed candidate with year at or before 1970 (an epoch
candidate in particular) forces the fatal failure, because it wins the
minimum selection against later dates and then trips the year guard; and
when every candidate's year is after 1970 the earliest candidate is
returned. -/
theorem c1_earliest_selection_amended (tp : TimeParser) (meta : ExifToolMetadata) :
    (collectCandidates tp meta = [] →
      GetEarliestCreationDate tp meta = .error ExifCreationDateNotFoundError)
  ∧ (∀ t, GetEarliestCreationDate tp meta = .ok t →
      t ∈ collectCandidates tp meta ∧
      (∀ u ∈ collectCandidates tp meta, goTimeBefore u t = false) ∧
      1970 < t.year)
  ∧ (∀ t ∈ collectCandidates tp meta, t.year ≤ 1970 →
      GetEarliestCreationDate tp meta = .error ExifCreationDateNotFoundError)
  ∧ (collectCandidates tp meta ≠ [] →
      (∀ u ∈ collectCandidates tp meta, 1970 < u.year) →
      ∃ t, GetEarliestCreationDate tp meta = .ok t ∧ t ∈ collectCandidates tp meta ∧
        ∀ u ∈ collectCandidates tp meta, goTimeBefore u t = false) := by
  cases hc : collectCandidates tp meta with
  | nil =>
    refine ⟨fun _ => ?_, fun t ht => ?_, fun t ht => ?_, fun hne => ?_⟩
    · simp [GetEarliestCreationDate, hc]
    · simp [GetEarliestCreationDate, hc] at ht
    · simp at ht
    · exact absurd rfl hne
  | cons d cs =>
    have hmem := FindEarliestDate_mem d cs zeroGoTime
    have hle := FindEarliestDate_le d cs zeroGoTime
    refine ⟨fun he => ?_, fun t ht => ?_, fun t ht hy => ?_, fun _ hall => ?_⟩
    · simp at he
    · by_cases hg : (FindEarliestDate (d :: cs) zeroGoTime).year ≤ 1970
      · simp [GetEarliestCreationDate, hc, hg] at ht
      · simp [GetEarliestCreationDate, hc, hg] at ht
        subst ht
        exact ⟨hmem, hle, by omega⟩
    · have hlet := hle t ht
      rw [goTimeBefore_false_iff] at hlet
      have hg : (FindEarliestDate (d :: cs) zeroGoTime).year ≤ 1970 := by omega
      simp [GetEarliestCreationDate, hc, hg]
    · have hg : ¬ (FindEarliestDate (d :: cs) zeroGoTime).year ≤ 1970 := by
        have := hall _ hmem
        omega
      refine ⟨FindEarliestDate (d :: cs) zeroGoTime, ?_, hmem, hle⟩
      simp [GetEarliestCreationDate, hc, hg]

/-- Witness for C1's amended theorem at a concrete record: an epoch-only
candidate set is a successfully parsed candidate set, and the call fails
fatally on it. -/
theorem c1_earliest_selection_witness :
    { year := (1970 : Int), rest := 0 } ∈ collectCandidates tpYear metaEpochOnly
  ∧ GetEarliestCreationDate tpYear metaEpochOnly = .error ExifCreationDateNotFoundError :=
  ⟨by decide,
   (c1_earliest_selection_amended tpYear metaEpochOnly).2.2.1
     { year := (1970 : Int), rest := 0 } (by decide) (by decide)⟩

/-! ### Parse and ReadMetadata -/

/-- A fresh metadata record, as `ReadMetadata` builds one before parsing. -/
def freshMeta (file : String) : ExifToolMetadata :=
  { SourceFile := file, DataMap := [], DataMapJson := "" }

/-- The initial ignored `Parse` on the bytes of an empty JSON object fails
to unmarshal (the target is a slice), leaving the fresh record unchanged. -/
theorem parse_empty_obj (meta : ExifToolMetadata) :
    Parse meta (GoJson.obj []) =
      .ok (meta, some (.wrap "error during unmarshaling (\x7b\x7d)"
        "json: cannot unmarshal value into Go value of type []KeyValueMap")) := rfl

/-- The control flow of `ReadMetadata` after the concrete initial parse is
reduced: branch on `Scan()`, then on `Err()`, then parse the bytes. -/
theorem ReadMetadata_eq (file : String) (scan : ScanStep) :
    ReadMetadata file scan =
      if scan.ok = false then
        .ok (freshMeta file, some (.msg ("error reading exif data:" ++ file)))
      else
        match scan.err with
        | some e => .ok (freshMeta file, some (.wrap "error while reading stdMergedOut" e))
        | none => Parse (freshMeta file) scan.bytes := rfl

/-- A scan step whose internal error is set and whose `Scan()` returned
false (the way `bufio.Scanner` reports an I/O error with no complete
token). -/
def scanErrNoTok : ScanStep :=
  { ok := false, err := some "unexpected EOF", bytes := GoJson.invalid "" }

/-- A scan step whose internal error is set although `Scan()` returned one
final token (a read that returned data together with an error). -/
def scanErrWithTok : ScanStep :=
  { ok := true, err := some "read failed", bytes := GoJson.arr [GoJson.obj []] }

/-- C2, counterexample to the claim as stated: a request whose scanner
error is set but whose `Scan()` returned false yields the mode-(a)
"error reading exif data" message, a plain non-wrapping error — the
underlying I/O error is not reported. -/
theorem c2_counterexample :
    scanErrNoTok.err = some "unexpected EOF"
  ∧ ReadMetadata "a.jpg" scanErrNoTok =
      .ok (freshMeta "a.jpg", some (.msg "error reading exif data:a.jpg"))
  ∧ GoErr.isWrap (.msg "error reading exif data:a.jpg") = false := by
  decide

/-- C2 (amended): when the scanner's internal error is set, `ReadMetadata`
wraps and reports it only if the scan step still returned a token
(`Scan()` true); when `Scan()` returned false the mode-(a) message is
returned instead and the underlying error is not reported, because the
`Scan()` check precedes the `Err()` check. -/
theorem c2_scanerr_amended (file : String) (scan : ScanStep) (e : String)
    (h : scan.err = some e) :
    (scan.ok = true →
      ReadMetadata file scan =
        .ok (freshMeta file, some (.wrap "error while reading stdMergedOut" e)))
  ∧ (scan.ok = false →
      ReadMetadata file scan =
        .ok (freshMeta file, some (.msg ("error reading exif data:" ++ file)))) := by
  constructor
  · intro hok
    rw [ReadMetadata_eq, if_neg (by simp [hok]), h]
  · intro hok
    rw [ReadMetadata_eq, if_pos hok]

/-- Witness for C2's amended theorem: with the error set and a token still
scanned, the underlying error is wrapped; with the error set and no token,
the plain message comes back. -/
theorem c2_scanerr_witness :
    ReadMetadata "b.jpg" scanErrWithTok =
      .ok (freshMeta "b.jpg", some (.wrap "error while reading stdMergedOut" "read failed"))
  ∧ ReadMetadata "c.jpg" scanErrNoTok =
      .ok (freshMeta "c.jpg", some (.msg "error reading exif data:c.jpg")) :=
  ⟨(c2_scanerr_amended "b.jpg" scanErrWithTok "read failed" (by decide)).1 (by decide),
   (c2_scanerr_amended "c.jpg" scanErrNoTok "unexpected EOF" (by decide)).2 (by decide)⟩

/-- C3: the byte sequence "[]" decodes as valid JSON (an empty array) and
unmarshals successfully into an empty slice, so `Parse` reaches the
element-zero access and panics with an index-out-of-range runtime error
instead of returning a decode error: the operation is not total. -/
theorem c3_empty_array_crash :
    unmarshalMetaList (GoJson.arr []) = .ok []
  ∧ Parse (freshMeta "a.jpg") (GoJson.arr []) =
      .crash "runtime error: index out of range [0] with length 0" := by
  decide

/-- A metadata record produced by a successful parse, raw JSON included. -/
def parsedOkMeta : ExifToolMetadata :=
  { SourceFile := "a.jpg", DataMap := [("A", "1")],
    DataMapJson := "[\x7b\"A\":\"1\"\x7d]" }

/-- C4, counterexample to the claim as stated: when `Parse` returns a
decode error it returns before storing the raw bytes, so the retained
raw-JSON field does not equal the input — here it stays empty while the
input renders as the empty JSON object. -/
theorem c4_counterexample :
    Parse (freshMeta "a.jpg") (GoJson.obj []) =
      .ok (freshMeta "a.jpg", some (.wrap "error during unmarshaling (\x7b\x7d)"
        "json: cannot unmarshal value into Go value of type []KeyValueMap"))
  ∧ (freshMeta "a.jpg").DataMapJson = ""
  ∧ (GoJson.obj []).render = "\x7b\x7d"
  ∧ (freshMeta "a.jpg").DataMapJson ≠ (GoJson.obj []).render := by
  decide

/-- C4 (amended): `Parse` retains the raw bytes exactly when unmarshaling
succeeds: a successful parse stores the input's string form, while on a
decode error the record is returned unchanged (previous raw value kept). -/
theorem c4_raw_retention_amended (meta : ExifToolMetadata) (b : GoJson) :
    (∀ m, Parse meta b = .ok (m, none) → m.DataMapJson = b.render)
  ∧ (∀ m e, Parse meta b = .ok (m, some e) → m = meta) := by
  constructor
  · intro m hm
    unfold Parse at hm
    cases hu : unmarshalMetaList b with
    | error e => rw [hu] at hm; simp at hm
    | ok l =>
      rw [hu] at hm
      cases l with
      | nil => simp at hm
      | cons x xs =>
        simp only [GoOutcome.ok.injEq, Prod.mk.injEq] at hm
        rw [← hm.1]
  · intro m e hm
    unfold Parse at hm
    cases hu : unmarshalMetaList b with
    | error e2 =>
      rw [hu] at hm
      simp only [GoOutcome.ok.injEq, Prod.mk.injEq] at hm
      exact hm.1.symm
    | ok l =>
      rw [hu] at hm
      cases l with
      | nil => simp at hm
      | cons x xs => simp at hm

/-- Witness for C4's amended theorem: a successful parse stores the
rendering of the input bytes. -/
theorem c4_raw_retention_witness :
    Parse (freshMeta "a.jpg") (GoJson.arr [GoJson.obj [("A", "1")]]) =
      .ok (parsedOkMeta, none)
  ∧ parsedOkMeta.DataMapJson = (GoJson.arr [GoJson.obj [("A", "1")]]).render :=
  ⟨by decide,
   (c4_raw_retention_amended (freshMeta "a.jpg") (GoJson.arr [GoJson.obj [("A", "1")]])).1
     parsedOkMeta (by decide)⟩

/-- A parse that preserves the record's `SourceFile` field: only `DataMap`
and `DataMapJson` are assigned by `Parse`. -/
theorem parse_preserves_sourcefile (meta : ExifToolMetadata) (b : GoJson)
    (m : ExifToolMetadata) (e : Option GoErr)
    (h : Parse meta b = .ok (m, e)) : m.SourceFile = meta.SourceFile := by
  unfold Parse at h
  cases hu : unmarshalMetaList b with
  | error e2 =>
    rw [hu] at h
    simp only [GoOutcome.ok.injEq, Prod.mk.injEq] at h
    rw [← h.1]
  | ok l =>
    rw [hu] at h
    cases l with
    | nil => simp at h
    | cons x xs =>
      simp only [GoOutcome.ok.injEq, Prod.mk.injEq] at h
      rw [← h.1]

/-- C10: whatever the scan step holds — success, scan failure, scanner
error, or JSON whose own SourceFile tag differs — a metadata record
returned by `ReadMetadata` carries the requested path in `SourceFile`; the
field is assigned from the argument and never overwritten by parsed
content. -/
theorem c10_source_file_stable (file : String) (scan : ScanStep)
    (m : ExifToolMetadata) (e : Option GoErr)
    (h : ReadMetadata file scan = .ok (m, e)) : m.SourceFile = file := by
  rw [ReadMetadata_eq] at h
  by_cases hok : scan.ok = false
  · rw [if_pos hok] at h
    simp only [GoOutcome.ok.injEq, Prod.mk.injEq] at h
    rw [← h.1]
    rfl
  · rw [if_neg hok] at h
    cases hse : scan.err with
    | some e2 =>
      rw [hse] at h
      simp only [GoOutcome.ok.injEq, Prod.mk.injEq] at h
      rw [← h.1]
      rfl
    | none =>
      rw [hse] at h
      exact parse_preserves_sourcefile _ _ _ _ h

/-- A successful scan step whose JSON carries a conflicting SourceFile
tag. -/
def scanOtherSource : ScanStep :=
  { ok := true, err := none,
    bytes := GoJson.arr [GoJson.obj [("SourceFile", "other.jpg")]] }

/-- The record that scan step parses into for the request "f.jpg". -/
def metaOtherSource : ExifToolMetadata :=
  { SourceFile := "f.jpg", DataMap := [("SourceFile", "other.jpg")],
    DataMapJson := "[\x7b\"SourceFile\":\"other.jpg\"\x7d]" }

/-- Witness for C10 at a concrete request whose parsed JSON carries a
different SourceFile tag: the returned record still holds the requested
path. -/
theorem c10_source_file_stable_witness :
    ReadMetadata "f.jpg" scanOtherSource = .ok (metaOtherSource, none)
  ∧ metaOtherSource.SourceFile = "f.jpg" :=
  ⟨by decide,
   c10_source_file_stable "f.jpg" scanOtherSource metaOtherSource none (by decide)⟩

/-! ### GetTime, GetMediaDuration, GetFullCameraName -/

/-- A record whose CreateDate field holds the all-zero placeholder date. -/
def metaZeroDate : ExifToolMetadata :=
  { SourceFile := "z.jpg", DataMap := [("CreateDate", "0000:00:00")], DataMapJson := "" }

/-- C7: a field value that is empty or does not begin with a nonzero digit
makes `GetTime` return the distinguished zero-date condition, never a
generic parse error; and when a generic parse error occurs on other
strings, it embeds both the offending (normalized) string and the detected
format. -/
theorem c7_gettime_zero_date (tp : TimeParser) (meta : ExifToolMetadata) (key : String) :
    (Get meta key = "" ∨ beginsWithNonzeroDigit (Get meta key) = false →
      GetTime tp meta key = .error .zeroDate)
  ∧ (∀ fmt norm e, beginsWithNonzeroDigit (Get meta key) = true →
      tp.normalize (Get meta key) = (fmt, norm) →
      tp.parseTime fmt norm = .error e →
      GetTime tp meta key = .error (.parseErr norm fmt e)) := by
  constructor
  · intro h
    simp only [GetTime]
    rw [if_pos h]
  · intro fmt norm e h1 hnorm hparse
    have hcond : ¬ (Get meta key = "" ∨ beginsWithNonzeroDigit (Get meta key) = false) := by
      rintro (hemp | hf)
      · rw [hemp] at h1
        exact absurd h1 (by decide)
      · rw [h1] at hf
        exact absurd hf (by decide)
    simp only [GetTime]
    rw [if_neg hcond, hnorm, hparse]

/-- Witness for C7 at a concrete record: the all-zero placeholder yields
the zero-date condition, and a string the concrete collaborator cannot
parse yields the embedding parse error. -/
theorem c7_gettime_zero_date_witness :
    GetTime tpYear metaZeroDate "CreateDate" = .error .zeroDate
  ∧ GetTime tpYear
      { SourceFile := "", DataMap := [("CreateDate", "2x10")], DataMapJson := "" }
      "CreateDate" =
      .error (.parseErr "2x10" "2006:01:02 15:04:05" "cannot parse") :=
  ⟨(c7_gettime_zero_date tpYear metaZeroDate "CreateDate").1 (Or.inr (by decide)),
   (c7_gettime_zero_date tpYear
      { SourceFile := "", DataMap := [("CreateDate", "2x10")], DataMapJson := "" }
      "CreateDate").2
     "2006:01:02 15:04:05" "2x10" "cannot parse" (by decide) (by decide) (by decide)⟩

/-- The claim-side reformulation of the duration lookup, amended with the
trailing trim: normalize the three candidates, pick the first non-empty
one, trim it, default to the empty string. -/
def mediaDurationSpec (meta : ExifToolMetadata) : String :=
  (((([Get meta "Duration", Get meta "MediaDuration", Get meta "TrackDuration"].map
      normDuration).find? (fun v => !(v == ""))).map goTrimSpace).getD "")

/-- The candidate loop returns the trimmed first normalized-non-empty
value. -/
theorem durationLoop_eq_find (l : List String) :
    durationLoop l =
      ((((l.map normDuration).find? (fun v => !(v == ""))).map goTrimSpace).getD "") := by
  induction l with
  | nil => rfl
  | cons v rest ih =>
    by_cases hn : normDuration v = ""
    · simp only [durationLoop, hn, List.map_cons]
      rw [List.find?_cons_of_neg _ (by simp [hn])]
      simpa [hn] using ih
    · simp only [durationLoop, List.map_cons]
      rw [List.find?_cons_of_pos _ (by simp [hn])]
      simp [hn]

/-- A record whose Duration field normalizes to a nonempty all-whitespace
string. -/
def metaTabDuration : ExifToolMetadata :=
  { SourceFile := "", DataMap := [("Duration", "\t")], DataMapJson := "" }

/-- C8, counterexample to the claim as stated: a Duration of a single tab
survives normalization (only "(approx)" and spaces are removed) as the
non-empty string "\t", yet `GetMediaDuration` returns the empty string —
the code additionally trims the selected value. -/
theorem c8_counterexample :
    normDuration "\t" = "\t"
  ∧ ("\t" : String) ≠ ""
  ∧ GetMediaDuration metaTabDuration = ""
  ∧ GetMediaDuration metaTabDuration ≠ normDuration (Get metaTabDuration "Duration") := by
  decide

/-- A record exercising the claim's concrete example. -/
def metaApprox : ExifToolMetadata :=
  { SourceFile := "", DataMap := [("Duration", "10.5 s (approx)")], DataMapJson := "" }

/-- C8 (amended): `GetMediaDuration` tries Duration, MediaDuration,
TrackDuration in order, removes "(approx)" and all spaces from each, and
returns the first result that is non-empty after normalization — trimmed
of remaining leading and trailing white space — or the empty string when
all three normalize to empty; "10.5 s (approx)" yields "10.5s". -/
theorem c8_media_duration_amended (meta : ExifToolMetadata) :
    GetMediaDuration meta = mediaDurationSpec meta
  ∧ GetMediaDuration metaApprox = "10.5s" := by
  constructor
  · exact durationLoop_eq_find _
  · decide

/-- Witness for C8's amended theorem at a record using the second
candidate field. -/
theorem c8_media_duration_witness :
    GetMediaDuration
      { SourceFile := "", DataMap := [("MediaDuration", "1.2 s")], DataMapJson := "" } =
      "1.2s" :=
  (c8_media_duration_amended
    { SourceFile := "", DataMap := [("MediaDuration", "1.2 s")], DataMapJson := "" }).1.trans
    (by decide)

/-- The claim-side reformulation of the camera name, amended with the
trailing trim: both fields present and different → Make with Model in
parentheses; otherwise whichever is present; all trimmed. -/
def cameraNameSpec (meta : ExifToolMetadata) : String :=
  goTrimSpace
    (if Get meta "Make" ≠ "" ∧ Get meta "Model" ≠ "" ∧ Get meta "Model" ≠ Get meta "Make" then
      Get meta "Make" ++ " (" ++ Get meta "Model" ++ ")"
    else if Get meta "Make" ≠ "" then Get meta "Make"
    else Get meta "Model")

/-- A record whose Make is a single space and whose Model is absent. -/
def metaSpaceMake : ExifToolMetadata :=
  { SourceFile := "", DataMap := [("Make", " ")], DataMapJson := "" }

/-- C9, counterexample to the claim as stated: with Make the non-empty
string " " and Model empty, `GetFullCameraName` does not return Make alone
— the code trims the result to the empty string. -/
theorem c9_counterexample :
    Get metaSpaceMake "Make" = " "
  ∧ (" " : String) ≠ ""
  ∧ Get metaSpaceMake "Model" = ""
  ∧ GetFullCameraName metaSpaceMake = ""
  ∧ GetFullCameraName metaSpaceMake ≠ Get metaSpaceMake "Make" := by
  decide

/-- The claim's two concrete records. -/
def metaCanonCanon : ExifToolMetadata :=
  { SourceFile := "", DataMap := [("Make", "Canon"), ("Model", "Canon")], DataMapJson := "" }

/-- Make Canon with a distinct Model. -/
def metaCanonEos : ExifToolMetadata :=
  { SourceFile := "", DataMap := [("Make", "Canon"), ("Model", "EOS 5D")], DataMapJson := "" }

/-- C9 (amended): `GetFullCameraName` parenthesizes Model after Make only
when both are non-empty and differ, returns the present one when exactly
one is non-empty, suppresses a duplicate Model — and trims the combined
string of leading and trailing white space; Make "Canon" with Model
"Canon" gives "Canon", with Model "EOS 5D" gives "Canon (EOS 5D)". -/
theorem c9_camera_name_amended (meta : ExifToolMetadata) :
    GetFullCameraName meta = cameraNameSpec meta
  ∧ GetFullCameraName metaCanonCanon = "Canon"
  ∧ GetFullCameraName metaCanonEos = "Canon (EOS 5D)" := by
  refine ⟨?_, by decide, by decide⟩
  by_cases hmk : Get meta "Make" = ""
  · by_cases hmd : Get meta "Model" = ""
    · simp [GetFullCameraName, cameraNameSpec, hmk, hmd]
    · simp [GetFullCameraName, cameraNameSpec, hmk, hmd]
  · by_cases hmd : Get meta "Model" = ""
    · simp [GetFullCameraName, cameraNameSpec, hmk, hmd]
    · by_cases heq : Get meta "Model" = Get meta "Make"
      · simp [GetFullCameraName, cameraNameSpec, hmk, hmd, heq]
      · simp [GetFullCameraName, cameraNameSpec, hmk, hmd, heq]

/-- Witness for C9's amended theorem at a record with only Model set. -/
theorem c9_camera_name_witness :
    GetFullCameraName
      { SourceFile := "", DataMap := [("Model", "D750")], DataMapJson := "" } = "D750" :=
  (c9_camera_name_amended
    { SourceFile := "", DataMap := [("Model", "D750")], DataMapJson := "" }).1.trans
    (by decide)
